import Mathlib

/-!
Verification of the data-normalization and field-extraction pipeline of the
Customizable-Finance-Dashboard repository.

The development shallowly embeds the TypeScript sources:
  - `src/utils/mappers/adapters/GenericJSONAdapter.ts` (the generic adapter),
  - the `AlphaVantageAdapter` and the mapper registry (`getMapper`),
  - the data-formatting utilities (`extractData`, `findTimeSeries`,
    `findDataStructure`, `extractTimeSeriesFields`, `extractSimpleFields`,
    `extractFields`).

Modelling decisions, stated once here:
  - JavaScript runtime values are modelled by `JValue`; objects are
    association lists in insertion order (JavaScript's reordering of
    integer-like own keys is not modelled; no payload in question uses them).
    Property access is own-property lookup (prototype chains are not
    modelled).
  - JavaScript numbers are modelled by `JSNum`: `NaN`, the two infinities,
    and exact rationals.  Floating-point rounding and overflow are not
    modelled; a numeric literal parses to the exact rational it denotes.
  - A `transform` call either returns (`TResult.ok`) or throws
    (`TResult.thrown`, used where the source reaches `Object.keys(null)` or
    `Object.keys(undefined)`, which raises a `TypeError`).
  - `String.prototype.localeCompare` (used as the tie-break of the
    natural-sort comparator) is modelled as code-point lexicographic
    comparison, which agrees with it on the same-case ASCII field names this
    code processes.  `Array.prototype.sort`'s default comparator is
    UTF-16 code-unit comparison, modelled as code-point comparison (they
    agree outside surrogate pairs).
  - The sorts are modelled by insertion sort.  Every comparator in the
    source is antisymmetric, so the sorted permutation is unique and the
    choice of (stable) sorting algorithm is unobservable.
-/

/-- A JavaScript number: NaN, the infinities, or an exact rational. -/
inductive JSNum where
  | nan : JSNum
  | inf : JSNum
  | negInf : JSNum
  | val : Rat → JSNum
deriving DecidableEq, Repr

/-- A JavaScript runtime value (JSON values plus `undefined`). -/
inductive JValue where
  | jnull : JValue
  | jundef : JValue
  | jbool : Bool → JValue
  | jnum : JSNum → JValue
  | jstr : String → JValue
  | jarr : List JValue → JValue
  | jobj : List (String × JValue) → JValue
deriving Repr

/-- JavaScript truthiness of a value. -/
def jsTruthy : JValue → Bool
  | .jnull => false
  | .jundef => false
  | .jbool b => b
  | .jnum .nan => false
  | .jnum (.val q) => decide (q ≠ 0)
  | .jnum _ => true
  | .jstr s => !s.isEmpty
  | .jarr _ => true
  | .jobj _ => true

/-- Whether `typeof v === "object"` (true for objects, arrays and `null`). -/
def typeofObject : JValue → Bool
  | .jnull => true
  | .jarr _ => true
  | .jobj _ => true
  | _ => false

/-- Whether `Array.isArray(v)`. -/
def isArr : JValue → Bool
  | .jarr _ => true
  | _ => false

/-- Whether the value is literally `null`. -/
def isJNull : JValue → Bool
  | .jnull => true
  | _ => false

/-- Whether the value is literally `undefined`. -/
def isJUndef : JValue → Bool
  | .jundef => true
  | _ => false

/-- Whether a string is the canonical decimal form of an array index. -/
def strToIndex (k : String) : Option Nat :=
  match k.data with
  | [] => none
  | c :: cs =>
    if (c :: cs).all Char.isDigit && (c ≠ '0' || cs.isEmpty) then
      some ((c :: cs).foldl (fun n d => n * 10 + (d.toNat - 48)) 0)
    else none

/-- Own-property access `v[k]`, yielding `undefined` when absent.  Strings and
arrays expose their indices and `length` as in JavaScript. -/
def jsGet : JValue → String → JValue
  | .jobj fs, k =>
    match fs.lookup k with
    | some v => v
    | none => .jundef
  | .jarr xs, k =>
    (match strToIndex k with
     | some i =>
       match xs.get? i with
       | some v => v
       | none => .jundef
     | none => if k = "length" then .jnum (.val xs.length) else .jundef)
  | .jstr s, k =>
    (match strToIndex k with
     | some i =>
       match s.data.get? i with
       | some c => .jstr (String.mk [c])
       | none => .jundef
     | none => if k = "length" then .jnum (.val s.length) else .jundef)
  | _, _ => JValue.jundef

/-- Optional chaining `v?.[k]`: `undefined` when `v` is `null`/`undefined`. -/
def jsGetOpt (v : JValue) (k : String) : JValue :=
  match v with
  | .jnull => .jundef
  | .jundef => .jundef
  | _ => jsGet v k

/-- The own enumerable keys of a value, in insertion order (the order both of
`Object.keys` and of `for ... in` under the own-property model). -/
def jsOwnKeys : JValue → List String
  | .jobj fs => fs.map Prod.fst
  | .jarr xs => (List.range xs.length).map (fun i => toString i)
  | .jstr s => (List.range s.data.length).map (fun i => toString i)
  | _ => []

/-- `Object.keys`, which throws a `TypeError` (here: `none`) on `null` and
`undefined`. -/
def jsKeysF : JValue → Option (List String)
  | .jnull => none
  | .jundef => none
  | v => some (jsOwnKeys v)

/-- The `k in v` membership test (own-property model; used behind a
`typeof v === "object"` guard, so only objects and arrays matter). -/
def keyIn (v : JValue) (k : String) : Bool :=
  match v with
  | .jobj fs => (fs.map Prod.fst).contains k
  | .jarr xs =>
    (match strToIndex k with
     | some i => decide (i < xs.length)
     | none => k = "length")
  | _ => false

/-- `Object.entries` of an object (empty for every non-object). -/
def jsEntries : JValue → List (String × JValue)
  | .jobj fs => fs
  | _ => []

/-- The truthiness-based default `a || b` on values. -/
def jsOr (a b : JValue) : JValue := if jsTruthy a then a else b

/-- The truthiness-based default `s || d` for an optional string. -/
def jsStrOr (o : Option String) (d : String) : String :=
  match o with
  | some s => if s.isEmpty then d else s
  | none => d

/-! ### Exact decimal rationals, built without gcd so that the kernel can
evaluate them.  `stripCount p fuel n` divides `p` out of `n` at most `fuel`
times and reports the count. -/

def stripCount (p : Nat) : Nat → Nat → Nat × Nat
  | 0, n => (n, 0)
  | fuel + 1, n =>
    if n ≠ 0 ∧ n % p = 0 then
      let r := stripCount p fuel (n / p)
      (r.1, r.2 + 1)
    else (n, 0)

/-- The rational `m / 10 ^ k`, constructed in lowest terms without gcd so the
kernel can evaluate it on concrete inputs. -/
def decToRat (m : Int) (k : Nat) : Rat :=
  if hm : m.natAbs = 0 then 0
  else
    Rat.mk'
      (if m < 0 then -((stripCount 5 k (stripCount 2 k m.natAbs).1).1 : Int)
       else ((stripCount 5 k (stripCount 2 k m.natAbs).1).1 : Int))
      (2 ^ (k - (stripCount 2 k m.natAbs).2)
        * 5 ^ (k - (stripCount 5 k (stripCount 2 k m.natAbs).1).2))
      (Nat.mul_ne_zero (pow_ne_zero _ (by norm_num)) (pow_ne_zero _ (by norm_num)))
      (by
        have hdvd : ∀ (p fuel n : Nat), (stripCount p fuel n).1 ∣ n := by
          intro p fuel
          induction fuel with
          | zero => intro n; simp [stripCount]
          | succ f ih =>
            intro n
            by_cases h : n ≠ 0 ∧ n % p = 0
            · have hd : p ∣ n := Nat.dvd_of_mod_eq_zero h.2
              have h2 : n / p ∣ n := ⟨p, (Nat.div_mul_cancel hd).symm⟩
              simpa [stripCount, h] using (ih (n / p)).trans h2
            · simp [stripCount, h]
        have hne : ∀ (p fuel n : Nat), n ≠ 0 → (stripCount p fuel n).1 ≠ 0 := by
          intro p fuel
          induction fuel with
          | zero => intro n hn; simpa [stripCount] using hn
          | succ f ih =>
            intro n hn
            by_cases h : n ≠ 0 ∧ n % p = 0
            · have hd : p ∣ n := Nat.dvd_of_mod_eq_zero h.2
              have hq : n / p ≠ 0 := by
                intro h0
                have := Nat.eq_mul_of_div_eq_right hd h0
                simp [this] at hn
              simpa [stripCount, h] using ih (n / p) hq
            · simpa [stripCount, h] using hn
        have hstop : ∀ (p fuel n : Nat), n ≠ 0 → (stripCount p fuel n).2 < fuel →
            ¬ p ∣ (stripCount p fuel n).1 := by
          intro p fuel
          induction fuel with
          | zero => intro n _ hcl; exact absurd hcl (by simp)
          | succ f ih =>
            intro n hn hlt
            by_cases h : n ≠ 0 ∧ n % p = 0
            · have hd : p ∣ n := Nat.dvd_of_mod_eq_zero h.2
              have hq : n / p ≠ 0 := by
                intro h0
                have := Nat.eq_mul_of_div_eq_right hd h0
                simp [this] at hn
              have heq : stripCount p (f + 1) n
                  = ((stripCount p f (n / p)).1, (stripCount p f (n / p)).2 + 1) := by
                simp [stripCount, h]
              rw [heq] at hlt ⊢
              exact ih (n / p) hq (by omega)
            · have heq : stripCount p (f + 1) n = (n, 0) := by simp [stripCount, h]
              rw [heq]
              intro hdv
              rcases not_and_or.mp h with h1 | h2
              · exact h1 hn
              · exact h2 (Nat.mod_eq_zero_of_dvd hdv)
        have hcop : ∀ (p : Nat), Nat.Prime p → ∀ (fuel n w : Nat), n ≠ 0 →
            w ∣ (stripCount p fuel n).1 →
            Nat.Coprime w (p ^ (fuel - (stripCount p fuel n).2)) := by
          intro p hp fuel n w hn hw
          rcases Nat.eq_zero_or_pos (fuel - (stripCount p fuel n).2) with h0 | hpos
          · simp [h0]
          · have hlt : (stripCount p fuel n).2 < fuel := by omega
            have hnd : ¬ p ∣ (stripCount p fuel n).1 := hstop p fuel n hn hlt
            have hnd2 : ¬ p ∣ w := fun hdd => hnd (hdd.trans hw)
            exact Nat.Coprime.pow_right _ ((hp.coprime_iff_not_dvd.mpr hnd2).symm)
        have key : Nat.Coprime (stripCount 5 k (stripCount 2 k m.natAbs).1).1
            (2 ^ (k - (stripCount 2 k m.natAbs).2)
              * 5 ^ (k - (stripCount 5 k (stripCount 2 k m.natAbs).1).2)) := by
          have h2ne : (stripCount 2 k m.natAbs).1 ≠ 0 := hne 2 k m.natAbs hm
          exact Nat.Coprime.mul_right
            (hcop 2 Nat.prime_two k m.natAbs _ hm (hdvd 5 k (stripCount 2 k m.natAbs).1))
            (hcop 5 Nat.prime_five k (stripCount 2 k m.natAbs).1 _ h2ne dvd_rfl)
        split
        · simpa [Int.natAbs_neg] using key
        · simpa using key)

/-- The rational denoted by `m * 10 ^ e`. -/
def decimalToRat (m : Int) : Int → Rat
  | .ofNat n => Rat.mk' (m * ((10 ^ n : Nat) : Int)) 1 one_ne_zero (Nat.coprime_one_right _)
  | .negSucc n => decToRat m (n + 1)

/-- The numeric value of a (non-empty) list of decimal digit characters. -/
def digitsToNat (l : List Char) : Nat :=
  l.foldl (fun n c => n * 10 + (c.toNat - 48)) 0

/-- The whitespace characters skipped by `parseFloat` (ECMAScript
StrWhiteSpaceChar: whitespace and line terminators). -/
def jsWhitespace (c : Char) : Bool :=
  c = ' ' || c = '\t' || c = '\n' || c = '\r' || c.toNat = 11 || c.toNat = 12 ||
    c.toNat = 0xa0 || c.toNat = 0xfeff || c.toNat = 0x2028 || c.toNat = 0x2029

/-- The exponent part of a decimal literal: sign flag and digit characters
(empty when the exponent marker is absent or carries no digits, in which case
`parseFloat` stops before the marker and the exponent contributes nothing). -/
def expPart : List Char → Bool × List Char
  | 'e' :: '+' :: r => (false, r.takeWhile Char.isDigit)
  | 'e' :: '-' :: r => (true, r.takeWhile Char.isDigit)
  | 'e' :: r => (false, r.takeWhile Char.isDigit)
  | 'E' :: '+' :: r => (false, r.takeWhile Char.isDigit)
  | 'E' :: '-' :: r => (true, r.takeWhile Char.isDigit)
  | 'E' :: r => (false, r.takeWhile Char.isDigit)
  | _ => (false, [])

/-- The magnitude part of `parseFloat`, applied after sign processing:
longest prefix of `Infinity`, or `digits [. digits] [exponent]`, or
`. digits [exponent]`; no valid prefix yields NaN. -/
def parseFloatMag (l : List Char) (neg : Bool) : JSNum :=
  if "Infinity".data.isPrefixOf l then (if neg then .negInf else .inf)
  else
    let ip := l.takeWhile Char.isDigit
    let r1 := l.dropWhile Char.isDigit
    let fp := match r1 with
      | '.' :: r => r.takeWhile Char.isDigit
      | _ => []
    if ip.isEmpty && fp.isEmpty then .nan
    else
      let r2 := match r1 with
        | '.' :: r => r.dropWhile Char.isDigit
        | _ => r1
      let ep := expPart r2
      let eAbs : Int := digitsToNat ep.2
      let eVal : Int := (if ep.1 then -eAbs else eAbs) - (fp.length : Int)
      let mant : Nat := digitsToNat (ip ++ fp)
      let m : Int := if neg then -(mant : Int) else (mant : Int)
      .val (decimalToRat m eVal)

/-- `parseFloat` on the character list of a string: skip leading whitespace,
optional sign, then the magnitude. -/
def parseFloatChars : List Char → JSNum
  | '+' :: r => parseFloatMag r false
  | '-' :: r => parseFloatMag r true
  | r => parseFloatMag r false

/-- `parseFloat` applied to a string. -/
def parseFloatStr (s : String) : JSNum :=
  parseFloatChars (s.data.dropWhile jsWhitespace)

/-- Whether `n >= 0` in JavaScript (false for NaN). -/
def jsNumGe0 : JSNum → Bool
  | .nan => false
  | .inf => true
  | .negInf => false
  | .val q => decide (0 ≤ q)

/-! ### String comparison and sorting -/

/-- Code-point lexicographic `a <= b` on character lists (the model of both
the default `Array.prototype.sort` comparator and `localeCompare`; see the
header note). -/
def lexLeB : List Char → List Char → Bool
  | [], _ => true
  | _ :: _, [] => false
  | a :: as, b :: bs => if a = b then lexLeB as bs else decide (a < b)

/-- Code-point lexicographic `a <= b` on strings. -/
def strLeB (a b : String) : Bool := lexLeB a.data b.data

/-- The default-sort order on strings, as a decidable relation. -/
def strRel (a b : String) : Prop := strLeB a b = true

instance : DecidableRel strRel :=
  fun a b => inferInstanceAs (Decidable (strLeB a b = true))

/-- The numeric value of the leading digit prefix of a string, `0` when the
string has no leading digits (`parseInt(s.match(/^\d+/)?.[0] || "0")`). -/
def leadNat (s : String) : Nat := digitsToNat (s.data.takeWhile Char.isDigit)

/-- The natural-sort comparator of the field extractor: leading integer
prefix first, then the full string. -/
def natLeB (a b : String) : Bool :=
  if leadNat a = leadNat b then strLeB a b else decide (leadNat a < leadNat b)

/-- The natural-sort order, as a decidable relation. -/
def natRel (a b : String) : Prop := natLeB a b = true

instance : DecidableRel natRel :=
  fun a b => inferInstanceAs (Decidable (natLeB a b = true))

/-- `Array.prototype.sort()` with the default comparator on an array of
strings. -/
def jsSortStrings (l : List String) : List String := List.insertionSort strRel l

/-- `fields.sort` with the natural-sort comparator of the field extractor. -/
def natSortFields (fields : List String) : List String :=
  List.insertionSort natRel fields

/-! ### Key-name pattern matching -/

/-- Whether `needle` occurs as a contiguous substring of `hay`
(`String.prototype.includes`, or an anchored-nowhere regex literal). -/
def listContainsSub (needle : List Char) : List Char → Bool
  | [] => needle.isEmpty
  | l@(_ :: rest) => needle.isPrefixOf l || listContainsSub needle rest

/-- `hay.includes(needle)` on strings. -/
def containsSub (hay needle : String) : Bool := listContainsSub needle.data hay.data

/-- A JavaScript line terminator (not matched by `.` in a regex). -/
def isLineTerminator (c : Char) : Bool :=
  c = '\n' || c = '\r' || c.toNat = 0x2028 || c.toNat = 0x2029

/-- Whether `pre` followed by at most one (non-line-terminator) character
followed by `post` occurs at the start of `l` (the regex `pre.?post`
anchored at the current position). -/
def gapCheckAt (pre post l : List Char) : Bool :=
  pre.isPrefixOf l &&
    (post.isPrefixOf (l.drop pre.length) ||
      (match l.drop pre.length with
       | c :: r2 => !isLineTerminator c && post.isPrefixOf r2
       | [] => false))

/-- Whether the regex `pre.?post` matches anywhere in `l`. -/
def gapMatch (pre post : List Char) : List Char → Bool
  | [] => gapCheckAt pre post []
  | l@(_ :: rest) => gapCheckAt pre post l || gapMatch pre post rest

/-- ASCII lower-casing of a character (the model of a case-insensitive regex
flag; see the header note). -/
def asciiLowerChar (c : Char) : Char :=
  if 'A' ≤ c && c ≤ 'Z' then Char.ofNat (c.toNat + 32) else c

/-- ASCII lower-casing of a string. -/
def asciiLower (s : String) : String := String.mk (s.data.map asciiLowerChar)

/-- Whether a key matches one of `findTimeSeries`'s time-series name
patterns: `/time.?series/i`, `/time_series/i`, `/Time Series/i`, `/daily/i`,
`/weekly/i`, `/monthly/i` (each tested by `RegExp.prototype.test`, i.e. as a
substring search). -/
def matchesTSPattern (k : String) : Bool :=
  gapMatch "time".data "series".data (asciiLower k).data ||
    listContainsSub "time_series".data (asciiLower k).data ||
    listContainsSub "time series".data (asciiLower k).data ||
    listContainsSub "daily".data (asciiLower k).data ||
    listContainsSub "weekly".data (asciiLower k).data ||
    listContainsSub "monthly".data (asciiLower k).data

/-- Whether a key matches one of `findDataStructure`'s quote-like patterns:
`/global.?quote/i`, `/quote/i`, `/data/i`. -/
def matchesQuotePattern (k : String) : Bool :=
  gapMatch "global".data "quote".data (asciiLower k).data ||
    listContainsSub "quote".data (asciiLower k).data ||
    listContainsSub "data".data (asciiLower k).data

/-- Whether a string starts with a calendar date: the regex
`^\d\x7b4\x7d-\d\x7b2\x7d-\d\x7b2\x7d` (four digits, dash, two digits, dash,
two digits, then anything). -/
def isDateKey (s : String) : Bool :=
  match s.data with
  | a :: b :: c :: d :: e :: f :: g :: h :: i :: j :: _ =>
    a.isDigit && b.isDigit && c.isDigit && d.isDigit && e = '-' &&
      f.isDigit && g.isDigit && h = '-' && i.isDigit && j.isDigit
  | _ => false

/-- Whether a string is a pure digit sequence (the regex `^\d+$`). -/
def isPureDigits (s : String) : Bool :=
  !s.isEmpty && s.data.all Char.isDigit

/-- The field-name filter applied by `extractFields`: non-empty and not a
pure digit sequence. -/
def goodFieldName (f : String) : Bool :=
  decide (0 < f.length) && !isPureDigits f

/-! ### Path navigation (`extractData`) -/

/-- `String.prototype.split` with a single-character separator. -/
def splitOnChar (sep : Char) : List Char → List (List Char)
  | [] => [[]]
  | c :: cs =>
    let r := splitOnChar sep cs
    if c = sep then [] :: r
    else
      match r with
      | h :: t => (c :: h) :: t
      | [] => [[c]]

/-- `path.split(".")`. -/
def splitDots (s : String) : List String := (splitOnChar '.' s.data).map String.mk

/-- The navigation loop of `extractData`: for each key, require the current
value to be a truthy object with the key present (`key in result`), else
return `null`. -/
def walkPath : JValue → List String → JValue
  | r, [] => r
  | r, k :: ks =>
    if jsTruthy r && typeofObject r && keyIn r k then walkPath (jsGet r k) ks
    else .jnull

/-- `extractData(data, path?)` from the data-formatting utilities: `null` for
falsy data, the data itself for an absent or empty (falsy) path, else the
navigation loop over the dot-separated segments. -/
def extractData (data : JValue) (path : Option String) : JValue :=
  if !jsTruthy data then .jnull
  else
    match path with
    | none => data
    | some p => if p.isEmpty then data else walkPath data (splitDots p)

/-! ### Structure classification -/

/-- The inner acceptance test of `findTimeSeries`'s key loop: the key's value
is a truthy non-array object whose first own key is truthy and date-like. -/
def acceptsTSValue (v : JValue) : Bool :=
  jsTruthy v && typeofObject v && !isArr v &&
    (match (jsOwnKeys v).head? with
     | some fk => !fk.isEmpty && isDateKey fk
     | none => false)

/-- `findTimeSeries(data)`: `null` for non-objects; else the first own key
matching a time-series pattern whose value passes the acceptance test; else
the whole object under the sentinel key `"root"` when its own first key is
date-like; else `null`. -/
def findTimeSeries (data : JValue) : Option (String × JValue) :=
  if !jsTruthy data || !typeofObject data then none
  else
    match (jsOwnKeys data).find? (fun k =>
        matchesTSPattern k && acceptsTSValue (jsGet data k)) with
    | some k => some (k, jsGet data k)
    | none =>
      match (jsOwnKeys data).head? with
      | some fk => if !fk.isEmpty && isDateKey fk then some ("root", data) else none
      | none => none

/-- `findDataStructure(data)`: time series first (with `isTimeSeries = true`);
else the first own key matching a quote-like pattern whose value is a truthy
non-array object; else the root object, tagged non-time-series. -/
def findDataStructure (data : JValue) : Option (String × JValue × Bool) :=
  if !jsTruthy data || !typeofObject data then none
  else
    match findTimeSeries data with
    | some (k, v) => some (k, v, true)
    | none =>
      match (jsOwnKeys data).find? (fun k =>
          matchesQuotePattern k &&
            (jsTruthy (jsGet data k) && typeofObject (jsGet data k) &&
              !isArr (jsGet data k))) with
      | some k => some (k, jsGet data k, false)
      | none => some ("root", data, false)

/-! ### Field extraction -/

/-- `extractTimeSeriesFields(data)`: the naturally sorted field names of the
first date's record of the found time series ([] when no time series is
found, the series is empty, or its first entry is not a plain object). -/
def extractTimeSeriesFields (data : JValue) : List String :=
  match findTimeSeries data with
  | none => []
  | some (_, tsData) =>
    match (jsOwnKeys tsData).head? with
    | none => []
    | some firstDate =>
      let firstEntry := jsGet tsData firstDate
      if !jsTruthy firstEntry || !typeofObject firstEntry || isArr firstEntry then []
      else natSortFields (jsOwnKeys firstEntry)

/-- The leaf test of `extractSimpleFields` and of `extractFields`'s fallback:
`null`, `undefined`, non-objects and arrays are leaves; plain objects are
not. -/
def isLeafValue : JValue → Bool
  | .jobj _ => false
  | _ => true

/-- `extractSimpleFields(data)`: the naturally sorted keys of the found
structure whose values are leaves ([] when the found structure is falsy, a
non-object, or an array). -/
def extractSimpleFields (data : JValue) : List String :=
  match findDataStructure data with
  | none => []
  | some (_, sd, _) =>
    if !jsTruthy sd || !typeofObject sd || isArr sd then []
    else natSortFields ((jsOwnKeys sd).filter (fun k => isLeafValue (jsGet sd k)))

/-- The final fallback block of `extractFields`: leaf keys (filtered of pure
digit sequences) plus, for nested objects, their immediate keys (one level of
flattening), sorted with the default comparator. -/
def extractFieldsFallback (data : JValue) : List String :=
  jsSortStrings ((jsOwnKeys data).flatMap (fun k =>
    let v := jsGet data k
    if isLeafValue v then (if isPureDigits k then [] else [k])
    else (jsOwnKeys v).filter (fun f => !isPureDigits f)))

/-- `extractFields(data)` (the unused `_maxDepth` parameter of the source is
omitted): time-series fields when a time series is found; else the simple
(leaf-only) fields when the classifier reports a non-time-series structure;
else the flattening fallback.  The first two paths filter the returned names
through `goodFieldName`. -/
def extractFields (data : JValue) : List String :=
  if !jsTruthy data || !typeofObject data then []
  else
    match findTimeSeries data with
    | some _ => (extractTimeSeriesFields data).filter goodFieldName
    | none =>
      match findDataStructure data with
      | some (_, _, false) => (extractSimpleFields data).filter goodFieldName
      | _ => extractFieldsFallback data

/-! ### String coercion and JSON serialization (needed only on branches no
claim exercises: `parseFloat` of a non-string, and the key-value table).
Number printing is approximate (integer rationals print exactly; the
fraction form differs from JavaScript's decimal printing), which only
affects `parseFloat` coercion of exotic payloads carrying arrays of
non-integer numbers. -/

def jsNumToString : JSNum → String
  | .nan => "NaN"
  | .inf => "Infinity"
  | .negInf => "-Infinity"
  | .val q => if q.den = 1 then toString q.num else toString q.num ++ "/" ++ toString q.den

mutual

/-- `String([...])`: elements joined with commas, `null`/`undefined` as
empty. -/
def jsToStringList : List JValue → String
  | [] => ""
  | [x] => jsToStringOne x
  | x :: xs => jsToStringOne x ++ "," ++ jsToStringList xs

def jsToStringOne : JValue → String
  | .jnull => ""
  | .jundef => ""
  | .jbool b => if b then "true" else "false"
  | .jnum n => jsNumToString n
  | .jstr s => s
  | .jarr xs => jsToStringList xs
  | .jobj _ => "[object Object]"

end

/-- `parseFloat(v)` for an arbitrary value: strings are parsed, numbers pass
through (JavaScript round-trips them through `String`), arrays are parsed
from their joined string form, and everything else stringifies to something
non-numeric, hence NaN. -/
def jsParseFloat : JValue → JSNum
  | .jstr s => parseFloatStr s
  | .jnum n => n
  | .jarr xs => parseFloatStr (jsToStringList xs)
  | _ => .nan

/-- One escaped character of a JSON string literal. -/
def jsonEscapeChar (c : Char) : String :=
  if c = '"' then "\\\""
  else if c = '\\' then "\\\\"
  else if c = '\n' then "\\n"
  else if c = '\r' then "\\r"
  else if c = '\t' then "\\t"
  else if c.toNat = 8 then "\\b"
  else if c.toNat = 12 then "\\f"
  else String.mk [c]

/-- A JSON string literal for `s` (control characters below 32 other than
the common escapes are left unescaped by this model). -/
def jsonQuote (s : String) : String :=
  "\"" ++ String.join (s.data.map jsonEscapeChar) ++ "\""

mutual

/-- `JSON.stringify` (with `undefined` object members omitted and `undefined`
array elements as `null`, as in JavaScript). -/
def jsonStringify : JValue → String
  | .jnull => "null"
  | .jundef => "null"
  | .jbool b => if b then "true" else "false"
  | .jnum n =>
    (match n with
     | .val q => jsNumToString (.val q)
     | _ => "null")
  | .jstr s => jsonQuote s
  | .jarr xs => "[" ++ jsonStringifyArr xs ++ "]"
  | .jobj fs => "\x7b" ++ jsonStringifyFields fs ++ "\x7d"

def jsonStringifyArr : List JValue → String
  | [] => ""
  | [x] => jsonStringify x
  | x :: xs => jsonStringify x ++ "," ++ jsonStringifyArr xs

def jsonStringifyFields : List (String × JValue) → String
  | [] => ""
  | (k, v) :: fs =>
    match v with
    | .jundef => jsonStringifyFields fs
    | _ =>
      jsonQuote k ++ ":" ++ jsonStringify v ++
        (match fs.filter (fun kv => !isJUndef kv.2) with
         | [] => ""
         | _ => ",") ++ jsonStringifyFields fs

end

/-! ### The mapper contract (`src/utils/mappers/types.ts`) -/

/-- `MapperConfig`: an optional `fieldMapping` record and an optional
`rootPath`. -/
structure MapperConfig where
  fieldMapping : Option (List (String × String))
  rootPath : Option String

/-- `StandardizedChartData`. -/
structure StandardizedChartData where
  labels : List String
  datasets : List (String × List JSNum)

/-- `StandardizedTableData` (rows are kept as the runtime values the source
stores in them). -/
structure StandardizedTableData where
  headers : List String
  rows : List JValue

/-- `StandardizedMetricData` (`label` is a runtime value: the vendor adapter
can place a non-string there via `quote["01. symbol"] || "Unknown"`). -/
structure StandardizedMetricData where
  label : JValue
  value : JValue
  change : Option JSNum
  changeType : Option String

/-- `StandardizedData`: the tagged union of the three result shapes. -/
inductive StandardizedData where
  | chart : StandardizedChartData → StandardizedData
  | table : StandardizedTableData → StandardizedData
  | metric : StandardizedMetricData → StandardizedData

/-- The outcome of a `transform` call: a returned value or a thrown
`TypeError`. -/
inductive TResult where
  | thrown : TResult
  | ok : Option StandardizedData → TResult

/-- `config?.fieldMapping?.[k]`. -/
def cfgLookup (config : Option MapperConfig) (k : String) : Option String :=
  (config.bind (fun c => c.fieldMapping)).bind (fun m => m.lookup k)

/-- The truthiness test `config?.fieldMapping?.value` as an option: `none`
when absent or empty. -/
def cfgMetricValueKey (config : Option MapperConfig) : Option String :=
  match cfgLookup config "value" with
  | some s => if s.isEmpty then none else some s
  | none => none

/-- The truthiness test `config?.rootPath` as an option: `none` when absent
or empty. -/
def activeRootPath (config : Option MapperConfig) : Option String :=
  match config.bind (fun c => c.rootPath) with
  | some s => if s.isEmpty then none else some s
  | none => none

/-! ### The Alpha Vantage adapter (`AlphaVantageAdapter.ts`) -/

/-- `config?.fieldMapping?.value || "4. close"`. -/
def avTargetField (config : Option MapperConfig) : String :=
  jsStrOr (cfgLookup config "value") "4. close"

/-- The found-and-truthy time-series key of the Alpha Vantage adapter:
`Object.keys(obj).find(k => k.includes("Time Series") || k.includes("Daily")
|| k.includes("Weekly") || k.includes("Monthly"))`, guarded by `if
(timeSeriesKey)`. -/
def avTSKey (data : JValue) : Option String :=
  match (jsOwnKeys data).find? (fun k =>
      containsSub k "Time Series" || containsSub k "Daily" ||
        containsSub k "Weekly" || containsSub k "Monthly") with
  | some k => if k.isEmpty then none else some k
  | none => none

/-- One chart data point of the Alpha Vantage adapter:
`timeSeries[date]?.[targetField]`, parsed with `parseFloat` when it is a
string and defaulting to `0` otherwise. -/
def avChartPoint (ts : JValue) (targetField date : String) : JSNum :=
  match jsGetOpt (jsGet ts date) targetField with
  | .jstr s => parseFloatStr s
  | _ => .val 0

/-- `AlphaVantageAdapter.transform`. -/
def avTransform (data : JValue) (config : Option MapperConfig) : TResult :=
  if !jsTruthy data || !typeofObject data then .ok none
  else
    match avTSKey data with
    | some tsKey =>
      let ts := jsGet data tsKey
      match jsKeysF ts with
      | none => .thrown
      | some tsKeys =>
        let dates := jsSortStrings tsKeys
        let targetField := avTargetField config
        .ok (some (.chart ⟨dates, [(targetField, dates.map (avChartPoint ts targetField))]⟩))
    | none =>
      let quote := jsGet data "Global Quote"
      if jsTruthy quote then
        let changeN := jsParseFloat (jsOr (jsGet quote "09. change") (.jstr "0"))
        .ok (some (.metric
          ⟨jsOr (jsGet quote "01. symbol") (.jstr "Unknown"),
           .jnum (jsParseFloat (jsOr (jsGet quote "05. price") (.jstr "0"))),
           some changeN,
           some (if jsNumGe0 changeN then "positive" else "negative")⟩))
      else .ok none

/-! ### The generic JSON adapter (`GenericJSONAdapter.ts`) -/

/-- The root-path navigation loop of the generic adapter: descend while the
current value is a non-null object and the next property is not undefined;
otherwise fail. -/
def resolveRootPathLoop : JValue → List String → Option JValue
  | v, [] => some v
  | v, p :: ps =>
    if typeofObject v && !isJNull v && !isJUndef (jsGet v p) then
      resolveRootPathLoop (jsGet v p) ps
    else none

/-- The value the generic adapter operates on: the payload itself, or the
resolved `rootPath` when one is configured (failure propagates as `none`). -/
def genericTarget (data : JValue) (config : Option MapperConfig) : Option JValue :=
  match activeRootPath config with
  | none => some data
  | some rp => resolveRootPathLoop data (splitDots rp)

/-- The shape dispatch of the generic adapter once a target value is in
hand: arrays become tables, non-null objects become a metric (when
`fieldMapping.value` is configured) or a key-value table, everything else
yields `null`. -/
def genericShape (t : JValue) (config : Option MapperConfig) : TResult :=
  match t with
  | .jarr [] => .ok (some (.table ⟨[], []⟩))
  | .jarr (x :: xs) =>
    (match jsKeysF x with
     | none => .thrown
     | some hs => .ok (some (.table ⟨hs, x :: xs⟩)))
  | _ =>
    if typeofObject t && !isJNull t then
      match cfgMetricValueKey config with
      | some k =>
        .ok (some (.metric
          ⟨.jstr (jsStrOr (cfgLookup config "label") "Value"), jsGet t k, none, none⟩))
      | none =>
        .ok (some (.table ⟨["Key", "Value"],
          (jsEntries t).map (fun kv => .jobj
            [("Key", .jstr kv.1),
             ("Value", if typeofObject kv.2 then .jstr (jsonStringify kv.2) else kv.2)])⟩))
    else .ok none

/-- `GenericJSONAdapter.transform`. -/
def genericTransform (data : JValue) (config : Option MapperConfig) : TResult :=
  if !jsTruthy data then .ok none
  else
    match genericTarget data config with
    | none => .ok none
    | some t => genericShape t config

/-! ### The registry (`getMapper`) -/

/-- `DataMapper`: id, name, description and the transform capability. -/
structure DataMapper where
  id : String
  name : String
  description : String
  transform : JValue → Option MapperConfig → TResult

/-- `AlphaVantageAdapter`. -/
def AlphaVantageAdapter : DataMapper :=
  ⟨"alpha-vantage", "Alpha Vantage Adapter",
   "Handles Time Series and Global Quote data from Alpha Vantage API",
   avTransform⟩

/-- `GenericJSONAdapter`. -/
def GenericJSONAdapter : DataMapper :=
  ⟨"generic-json", "Generic JSON Adapter",
   "Auto-detects structure (Array -> Table, Object -> Metric/List)",
   genericTransform⟩

/-- The registry object, keyed by adapter id. -/
def mappers : List (String × DataMapper) :=
  [(AlphaVantageAdapter.id, AlphaVantageAdapter),
   (GenericJSONAdapter.id, GenericJSONAdapter)]

/-- `getMapper(id)`: the registered adapter, defaulting to the generic one
(`mappers[id] || GenericJSONAdapter`; adapters are always truthy). -/
def getMapper (id : String) : DataMapper :=
  (mappers.lookup id).getD GenericJSONAdapter

/-! ### Sanity checks of the parseFloat model on concrete strings -/

example : parseFloatStr "105" = .val 105 := by decide
example : parseFloatStr "150.00" = .val 150 := by decide
example : parseFloatStr "-2.50" = .val (Rat.mk' (-5) 2) := by decide
example : parseFloatStr "N/A" = .nan := by decide
example : parseFloatStr "  -1.5e2x" = .val (-150) := by decide
example : parseFloatStr ".5" = .val (Rat.mk' 1 2) := by decide
example : parseFloatStr "1e+" = .val 1 := by decide
example : parseFloatStr "-Infinity" = .negInf := by decide
example : parseFloatStr "0x10" = .val 0 := by decide

/-- The specification-side ascending lexicographic order on strings (equal,
or strictly smaller in code-point lexicographic order). -/
def strLexLe (a b : String) : Prop :=
  a = b ∨ List.Lex (· < ·) a.data b.data

/-- The specification-side natural-sort order on field names: primarily by
the leading integer prefix (absent prefixes count as 0), secondarily by
lexicographic comparison of the full string. -/
def natOrder (a b : String) : Prop :=
  leadNat a < leadNat b ∨ (leadNat a = leadNat b ∧ strLexLe a b)

/-! ### Properties of the comparators and sorts -/

theorem lexLeB_cons_same (x : Char) (xs ys : List Char) :
    lexLeB (x :: xs) (x :: ys) = lexLeB xs ys := by simp [lexLeB]

theorem lexLeB_cons_ne {x y : Char} (h : x ≠ y) (xs ys : List Char) :
    lexLeB (x :: xs) (y :: ys) = decide (x < y) := by simp [lexLeB, h]

theorem lexLeB_total : ∀ (a b : List Char), lexLeB a b = true ∨ lexLeB b a = true := by
  intro a
  induction a with
  | nil => intro b; left; rfl
  | cons x xs ih =>
    intro b
    cases b with
    | nil => right; rfl
    | cons y ys =>
      by_cases h : x = y
      · subst h
        rw [lexLeB_cons_same, lexLeB_cons_same]
        exact ih ys
      · rcases lt_or_gt_of_ne h with hlt | hgt
        · left; rw [lexLeB_cons_ne h]; exact decide_eq_true hlt
        · right; rw [lexLeB_cons_ne (Ne.symm h)]; exact decide_eq_true hgt

theorem lexLeB_trans :
    ∀ (a b c : List Char), lexLeB a b = true → lexLeB b c = true → lexLeB a c = true := by
  intro a
  induction a with
  | nil => intro b c _ _; rfl
  | cons x xs ih =>
    intro b c hab hbc
    cases b with
    | nil => simp [lexLeB] at hab
    | cons y ys =>
      cases c with
      | nil => simp [lexLeB] at hbc
      | cons z zs =>
        by_cases hxy : x = y <;> by_cases hyz : y = z
        · subst hxy; subst hyz
          rw [lexLeB_cons_same] at hab hbc ⊢
          exact ih ys zs hab hbc
        · subst hxy
          rw [lexLeB_cons_ne hyz] at hbc
          rw [lexLeB_cons_ne hyz]
          exact hbc
        · subst hyz
          rw [lexLeB_cons_ne hxy] at hab
          rw [lexLeB_cons_ne hxy]
          exact hab
        · rw [lexLeB_cons_ne hxy] at hab
          rw [lexLeB_cons_ne hyz] at hbc
          have hxz : x < z := lt_trans (of_decide_eq_true hab) (of_decide_eq_true hbc)
          rw [lexLeB_cons_ne (ne_of_lt hxz)]
          exact decide_eq_true hxz

theorem lexLeB_iff_lex :
    ∀ (a b : List Char), lexLeB a b = true ↔ (a = b ∨ List.Lex (· < ·) a b) := by
  intro a
  induction a with
  | nil =>
    intro b
    cases b with
    | nil => simp [lexLeB]
    | cons y ys => simp only [lexLeB, true_iff]; exact Or.inr List.Lex.nil
  | cons x xs ih =>
    intro b
    cases b with
    | nil =>
      simp only [lexLeB]
      constructor
      · intro h; exact absurd h (by simp)
      · rintro (h | h)
        · exact absurd h (by simp)
        · cases h
    | cons y ys =>
      by_cases h : x = y
      · subst h
        rw [lexLeB_cons_same, ih ys]
        constructor
        · rintro (h1 | h1)
          · exact Or.inl (by rw [h1])
          · exact Or.inr (List.Lex.cons h1)
        · rintro (h1 | h1)
          · exact Or.inl (by injection h1)
          · cases h1 with
            | cons h2 => exact Or.inr h2
            | rel h2 => exact absurd h2 (lt_irrefl x)
      · rw [lexLeB_cons_ne h, decide_eq_true_eq]
        constructor
        · intro h1; exact Or.inr (List.Lex.rel h1)
        · rintro (h1 | h1)
          · exact absurd (by injection h1) h
          · cases h1 with
            | cons h2 => exact absurd rfl h
            | rel h2 => exact h2

theorem strEq_iff_data (a b : String) : a = b ↔ a.data = b.data :=
  ⟨congrArg String.data, String.ext⟩

theorem strLeB_iff (a b : String) : strLeB a b = true ↔ strLexLe a b := by
  unfold strLeB strLexLe
  rw [lexLeB_iff_lex, strEq_iff_data]

theorem strLeB_total (a b : String) : strLeB a b = true ∨ strLeB b a = true :=
  lexLeB_total a.data b.data

theorem strLeB_trans (a b c : String) :
    strLeB a b = true → strLeB b c = true → strLeB a c = true :=
  lexLeB_trans a.data b.data c.data

theorem natLeB_total (a b : String) : natLeB a b = true ∨ natLeB b a = true := by
  by_cases h : leadNat a = leadNat b
  · unfold natLeB
    rw [if_pos h, if_pos h.symm]
    exact strLeB_total a b
  · unfold natLeB
    rw [if_neg h, if_neg (Ne.symm h)]
    rcases lt_or_gt_of_ne h with hlt | hgt
    · exact Or.inl (decide_eq_true hlt)
    · exact Or.inr (decide_eq_true hgt)

theorem natLeB_trans (a b c : String) :
    natLeB a b = true → natLeB b c = true → natLeB a c = true := by
  intro hab hbc
  unfold natLeB at hab hbc ⊢
  by_cases h1 : leadNat a = leadNat b <;> by_cases h2 : leadNat b = leadNat c
  · rw [if_pos h1] at hab
    rw [if_pos h2] at hbc
    rw [if_pos (h1.trans h2)]
    exact strLeB_trans a b c hab hbc
  · rw [if_neg h2, decide_eq_true_eq] at hbc
    have : leadNat a < leadNat c := h1 ▸ hbc
    rw [if_neg (Nat.ne_of_lt this)]
    exact decide_eq_true this
  · rw [if_neg h1, decide_eq_true_eq] at hab
    have : leadNat a < leadNat c := h2 ▸ hab
    rw [if_neg (Nat.ne_of_lt this)]
    exact decide_eq_true this
  · rw [if_neg h1, decide_eq_true_eq] at hab
    rw [if_neg h2, decide_eq_true_eq] at hbc
    have : leadNat a < leadNat c := lt_trans hab hbc
    rw [if_neg (Nat.ne_of_lt this)]
    exact decide_eq_true this

theorem natLeB_iff (a b : String) : natLeB a b = true ↔ natOrder a b := by
  unfold natLeB natOrder
  by_cases h : leadNat a = leadNat b
  · rw [if_pos h, strLeB_iff]
    constructor
    · intro h1; exact Or.inr ⟨h, h1⟩
    · rintro (h1 | h1)
      · exact absurd h (Nat.ne_of_lt h1)
      · exact h1.2
  · rw [if_neg h, decide_eq_true_eq]
    constructor
    · intro h1; exact Or.inl h1
    · rintro (h1 | h1)
      · exact h1
      · exact absurd h1.1 h

theorem jsSortStrings_perm (l : List String) : (jsSortStrings l).Perm l :=
  List.perm_insertionSort strRel l

theorem jsSortStrings_sorted (l : List String) : (jsSortStrings l).Pairwise strLexLe := by
  have h := @List.sorted_insertionSort String strRel _ ⟨strLeB_total⟩
    ⟨fun a b c => strLeB_trans a b c⟩ l
  exact h.imp (fun hab => (strLeB_iff _ _).1 hab)

theorem natSortFields_perm (l : List String) : (natSortFields l).Perm l :=
  List.perm_insertionSort natRel l

theorem natSortFields_sorted (l : List String) : (natSortFields l).Pairwise natOrder := by
  have h := @List.sorted_insertionSort String natRel _ ⟨natLeB_total⟩
    ⟨fun a b c => natLeB_trans a b c⟩ l
  exact h.imp (fun hab => (natLeB_iff _ _).1 hab)

/-! ### Registry and adapter claims -/

theorem getMapper_eq_generic (j : String) (h1 : j ≠ "alpha-vantage")
    (h2 : j ≠ "generic-json") : getMapper j = GenericJSONAdapter := by
  unfold getMapper mappers
  simp [List.lookup, AlphaVantageAdapter, GenericJSONAdapter,
    beq_eq_false_iff_ne.mpr h1, beq_eq_false_iff_ne.mpr h2]

theorem getMapper_cases (j : String) :
    getMapper j = AlphaVantageAdapter ∨ getMapper j = GenericJSONAdapter := by
  by_cases h1 : j = "alpha-vantage"
  · subst h1; exact Or.inl rfl
  · by_cases h2 : j = "generic-json"
    · subst h2; exact Or.inr rfl
    · exact Or.inr (getMapper_eq_generic j h1 h2)

theorem lookup_eq_none_of_not_mem {β : Type} (fs : List (String × β)) (k : String)
    (h : ¬ k ∈ fs.map Prod.fst) : fs.lookup k = none := by
  induction fs with
  | nil => rfl
  | cons a fs ih =>
    simp only [List.map_cons, List.mem_cons, not_or] at h
    simp [List.lookup, beq_eq_false_iff_ne.mpr h.1, ih h.2]

/-- C3: the registry lookup `getMapper` returns the adapter registered under
the id when the id is a registered key (`"alpha-vantage"`, `"generic-json"`),
and the generic heuristic adapter for every other string (unknown or empty);
being a total function into `DataMapper` it never throws and never returns an
absence value, and its result is always one of the two registered
adapters. -/
theorem getMapper_resolution (id : String) :
    getMapper "alpha-vantage" = AlphaVantageAdapter ∧
    getMapper "generic-json" = GenericJSONAdapter ∧
    (id ≠ "alpha-vantage" → id ≠ "generic-json" → getMapper id = GenericJSONAdapter) ∧
    (getMapper id = AlphaVantageAdapter ∨ getMapper id = GenericJSONAdapter) :=
  ⟨rfl, rfl, getMapper_eq_generic id, getMapper_cases id⟩

/-- Witness for C3 at the concrete unregistered id `"nope"`. -/
theorem getMapper_resolution_witness :
    getMapper "alpha-vantage" = AlphaVantageAdapter ∧
    getMapper "generic-json" = GenericJSONAdapter ∧
    ("nope" ≠ "alpha-vantage" → "nope" ≠ "generic-json" →
      getMapper "nope" = GenericJSONAdapter) ∧
    (getMapper "nope" = AlphaVantageAdapter ∨ getMapper "nope" = GenericJSONAdapter) :=
  getMapper_resolution "nope"

/-- C4: for `payload = null` and `payload = undefined`, the transform of the
vendor Alpha Vantage adapter, of the generic adapter, and hence of every
adapter the registry can return, returns `null` (here `.ok none`) without
throwing, for every config. -/
theorem adapters_null_payload (config : Option MapperConfig) (id : String) :
    AlphaVantageAdapter.transform .jnull config = .ok none ∧
    AlphaVantageAdapter.transform .jundef config = .ok none ∧
    GenericJSONAdapter.transform .jnull config = .ok none ∧
    GenericJSONAdapter.transform .jundef config = .ok none ∧
    (getMapper id).transform .jnull config = .ok none ∧
    (getMapper id).transform .jundef config = .ok none := by
  refine ⟨rfl, rfl, rfl, rfl, ?_, ?_⟩ <;>
    rcases getMapper_cases id with h | h <;> rw [h] <;> rfl

/-- C10: for every non-null, non-array object target (after successful
`rootPath` resolution, if any) and every config whose `fieldMapping.value`
names a key absent from that object, the generic adapter still returns a
metric — label from `fieldMapping.label` or `"Value"`, value the missing
field passed through uncoerced, i.e. `undefined` — rather than `null` or the
key-value table. -/
theorem generic_missing_field_metric (data : JValue) (fs : List (String × JValue))
    (config : Option MapperConfig) (k : String)
    (h1 : jsTruthy data = true)
    (h2 : genericTarget data config = some (.jobj fs))
    (h3 : cfgMetricValueKey config = some k)
    (h4 : ¬ k ∈ fs.map Prod.fst) :
    GenericJSONAdapter.transform data config =
      .ok (some (.metric ⟨.jstr (jsStrOr (cfgLookup config "label") "Value"),
        .jundef, none, none⟩)) ∧
    jsGet (.jobj fs) k = .jundef := by
  have hget : jsGet (.jobj fs) k = .jundef := by
    simp [jsGet, lookup_eq_none_of_not_mem fs k h4]
  refine ⟨?_, hget⟩
  show genericTransform data config = _
  simp [genericTransform, h1, h2, genericShape, typeofObject, isJNull, h3, hget]

/-- Witness for C10 at a concrete object lacking the configured field. -/
theorem generic_missing_field_metric_witness :
    GenericJSONAdapter.transform (.jobj [("a", .jnum (.val 1))])
      (some ⟨some [("value", "missing"), ("label", "L")], none⟩) =
      .ok (some (.metric ⟨.jstr "L", .jundef, none, none⟩)) ∧
    jsGet (.jobj [("a", .jnum (.val 1))]) "missing" = .jundef :=
  generic_missing_field_metric (.jobj [("a", .jnum (.val 1))]) [("a", .jnum (.val 1))]
    (some ⟨some [("value", "missing"), ("label", "L")], none⟩) "missing"
    rfl rfl rfl (by decide)

theorem jsTruthy_jobj (fs : List (String × JValue)) : jsTruthy (.jobj fs) = true := rfl

theorem typeofObject_jobj (fs : List (String × JValue)) :
    typeofObject (.jobj fs) = true := rfl

theorem isArr_jobj (fs : List (String × JValue)) : isArr (.jobj fs) = false := rfl

/-- C8 counterexample: the claim says an empty or undefined path returns the
payload unchanged, but on the falsy payload `0` with an absent path
`extractData` returns `null`, not the payload. -/
theorem extractData_falsy_counterexample :
    extractData (.jnum (.val 0)) none = .jnull ∧
      JValue.jnum (.val 0) ≠ JValue.jnull :=
  ⟨rfl, fun h => by cases h⟩

/-- C8 (amended): `extractData` walks each dot-separated segment as a
property access and returns `null` (not an exception) whenever a segment is
absent or the current value is not a navigable (truthy object) value; an
empty or undefined path returns the payload unchanged provided the payload is
truthy — falsy payloads (null, undefined, 0, "", false, NaN) return `null`
regardless of the path. -/
theorem extractData_navigation (data v : JValue) (p k : String) (ks : List String) :
    (jsTruthy data = false → ∀ path, extractData data path = .jnull) ∧
    (jsTruthy data = true → extractData data none = data ∧
      extractData data (some "") = data) ∧
    (jsTruthy data = true → p.isEmpty = false →
      extractData data (some p) = walkPath data (splitDots p)) ∧
    (¬(jsTruthy v = true ∧ typeofObject v = true ∧ keyIn v k = true) →
      walkPath v (k :: ks) = .jnull) ∧
    ((jsTruthy v = true ∧ typeofObject v = true ∧ keyIn v k = true) →
      walkPath v (k :: ks) = walkPath (jsGet v k) ks) := by
  refine ⟨?_, ?_, ?_, ?_, ?_⟩
  · intro h path
    cases path <;> simp [extractData, h]
  · intro h
    constructor
    · unfold extractData
      rw [h]
      rfl
    · unfold extractData
      rw [h]
      rfl
  · intro h hp
    unfold extractData
    rw [h]
    show (if p.isEmpty = true then data else walkPath data (splitDots p)) =
      walkPath data (splitDots p)
    rw [if_neg (by simp [hp])]
  · intro h
    unfold walkPath
    rw [if_neg (fun hc => h (by simpa [Bool.and_eq_true, and_assoc] using hc))]
  · intro h
    conv_lhs => unfold walkPath
    rw [if_pos (by simpa [Bool.and_eq_true, and_assoc] using h)]

/-- Witness for C8 at a concrete one-key object and path. -/
theorem extractData_navigation_witness :
    (jsTruthy (JValue.jobj [("a", .jstr "x")]) = false →
      ∀ path, extractData (.jobj [("a", .jstr "x")]) path = .jnull) ∧
    (jsTruthy (JValue.jobj [("a", .jstr "x")]) = true →
      extractData (.jobj [("a", .jstr "x")]) none = .jobj [("a", .jstr "x")] ∧
      extractData (.jobj [("a", .jstr "x")]) (some "") = .jobj [("a", .jstr "x")]) ∧
    (jsTruthy (JValue.jobj [("a", .jstr "x")]) = true → "a".isEmpty = false →
      extractData (.jobj [("a", .jstr "x")]) (some "a") =
        walkPath (.jobj [("a", .jstr "x")]) (splitDots "a")) ∧
    (¬(jsTruthy (JValue.jobj [("a", .jstr "x")]) = true ∧
        typeofObject (JValue.jobj [("a", .jstr "x")]) = true ∧
        keyIn (.jobj [("a", .jstr "x")]) "a" = true) →
      walkPath (.jobj [("a", .jstr "x")]) ["a"] = .jnull) ∧
    ((jsTruthy (JValue.jobj [("a", .jstr "x")]) = true ∧
        typeofObject (JValue.jobj [("a", .jstr "x")]) = true ∧
        keyIn (.jobj [("a", .jstr "x")]) "a" = true) →
      walkPath (.jobj [("a", .jstr "x")]) ["a"] =
        walkPath (jsGet (.jobj [("a", .jstr "x")]) "a") []) :=
  extractData_navigation (.jobj [("a", .jstr "x")]) (.jobj [("a", .jstr "x")]) "a" "a" []

/-- C2 counterexample: the claim says every non-empty array yields a table,
but on the array `[null]` the generic adapter reaches `Object.keys(null)` and
throws a `TypeError` instead of returning. -/
theorem generic_array_null_counterexample :
    GenericJSONAdapter.transform (.jarr [.jnull]) none = .thrown ∧
      ∀ r : Option StandardizedData, TResult.thrown ≠ .ok r :=
  ⟨rfl, fun r h => by cases h⟩

/-- C2 (amended): for every array target (no `rootPath` configured, or after
successful resolution): the empty array yields a table with `headers: []`,
`rows: []` (not null); a non-empty array whose first element is not
`null`/`undefined` yields a table whose headers are the first element's own
key sequence in its own key order and whose rows are the input array
verbatim, so the row count equals the input length; a non-empty array whose
first element is `null` or `undefined` makes the adapter throw. -/
theorem generic_array_to_table (data : JValue) (xs : List JValue)
    (config : Option MapperConfig)
    (h1 : jsTruthy data = true)
    (h2 : genericTarget data config = some (.jarr xs)) :
    (xs = [] → GenericJSONAdapter.transform data config =
      .ok (some (.table ⟨[], []⟩))) ∧
    (∀ x rest hs, xs = x :: rest → jsKeysF x = some hs →
      GenericJSONAdapter.transform data config = .ok (some (.table ⟨hs, xs⟩)) ∧
        (StandardizedTableData.mk hs xs).rows.length = xs.length) ∧
    (∀ x rest, xs = x :: rest → jsKeysF x = none →
      GenericJSONAdapter.transform data config = .thrown) := by
  refine ⟨?_, ?_, ?_⟩
  · rintro rfl
    show genericTransform data config = _
    simp [genericTransform, h1, h2, genericShape]
  · rintro x rest hs rfl hkeys
    refine ⟨?_, rfl⟩
    show genericTransform data config = _
    simp [genericTransform, h1, h2, genericShape, hkeys]
  · rintro x rest rfl hkeys
    show genericTransform data config = _
    simp [genericTransform, h1, h2, genericShape, hkeys]

/-- Witness for C2 at a concrete one-element array of records. -/
theorem generic_array_to_table_witness :
    (([ (JValue.jobj [("a", JValue.jnum (.val 1))]) ] : List JValue) = [] →
      GenericJSONAdapter.transform (.jarr [.jobj [("a", .jnum (.val 1))]]) none =
        .ok (some (.table ⟨[], []⟩))) ∧
    (∀ x rest hs,
      ([ (JValue.jobj [("a", JValue.jnum (.val 1))]) ] : List JValue) = x :: rest →
      jsKeysF x = some hs →
      GenericJSONAdapter.transform (.jarr [.jobj [("a", .jnum (.val 1))]]) none =
        .ok (some (.table ⟨hs, [.jobj [("a", .jnum (.val 1))]]⟩)) ∧
        (StandardizedTableData.mk hs [.jobj [("a", .jnum (.val 1))]]).rows.length =
          ([ (JValue.jobj [("a", JValue.jnum (.val 1))]) ] : List JValue).length) ∧
    (∀ x rest,
      ([ (JValue.jobj [("a", JValue.jnum (.val 1))]) ] : List JValue) = x :: rest →
      jsKeysF x = none →
      GenericJSONAdapter.transform (.jarr [.jobj [("a", .jnum (.val 1))]]) none = .thrown) :=
  generic_array_to_table (.jarr [.jobj [("a", .jnum (.val 1))]])
    [.jobj [("a", .jnum (.val 1))]] none rfl rfl

/-- C9 counterexample: the claim says that when the classifier finds neither
a time series nor a quote-like substructure, nested object values contribute
their own immediate keys to `extractFields`; but on such a payload the
nested key `"x"` is dropped — the classifier's root fallback always reports a
structure, so `extractFields` takes the leaf-only path and the flattening
fallback is unreachable. -/
theorem extractFields_no_flattening_counterexample :
    extractFields (.jobj [("alpha", .jobj [("x", .jnum (.val 1))]),
      ("beta", .jnum (.val 2))]) = ["beta"] ∧
    ¬ "x" ∈ extractFields (.jobj [("alpha", .jobj [("x", .jnum (.val 1))]),
      ("beta", .jnum (.val 2))]) := by
  refine ⟨rfl, ?_⟩
  intro h
  rw [show extractFields (.jobj [("alpha", .jobj [("x", .jnum (.val 1))]),
      ("beta", .jnum (.val 2))]) = ["beta"] from rfl] at h
  simp at h

/-- C9 (amended): for every object payload in which the classifier finds no
time series, `extractFields` returns the leaf-only simple-field extraction
filtered by `goodFieldName` (the flattening fallback is dead code), and every
returned field name is a non-empty string that is not a pure digit
sequence. -/
theorem extractFields_leaf_only (fs : List (String × JValue))
    (hts : findTimeSeries (.jobj fs) = none) :
    extractFields (.jobj fs) = (extractSimpleFields (.jobj fs)).filter goodFieldName ∧
    ∀ f ∈ extractFields (.jobj fs), 0 < f.length ∧ isPureDigits f = false := by
  have hfds : ∃ k v, findDataStructure (.jobj fs) = some (k, v, false) := by
    cases hq : (jsOwnKeys (JValue.jobj fs)).find? (fun k =>
        matchesQuotePattern k && (jsTruthy (jsGet (JValue.jobj fs) k) &&
          typeofObject (jsGet (JValue.jobj fs) k) &&
          !isArr (jsGet (JValue.jobj fs) k))) with
    | none =>
      exact ⟨"root", JValue.jobj fs, by
        simp [findDataStructure, jsTruthy_jobj, typeofObject_jobj, hts, hq]⟩
    | some k =>
      exact ⟨k, jsGet (JValue.jobj fs) k, by
        simp [findDataStructure, jsTruthy_jobj, typeofObject_jobj, hts, hq]⟩
  obtain ⟨k, v, hfds⟩ := hfds
  have heq : extractFields (.jobj fs) =
      (extractSimpleFields (.jobj fs)).filter goodFieldName := by
    simp [extractFields, jsTruthy_jobj, typeofObject_jobj, hts, hfds]
  refine ⟨heq, ?_⟩
  intro f hf
  rw [heq] at hf
  rcases List.mem_filter.mp hf with ⟨_, hgood⟩
  simp [goodFieldName] at hgood
  exact ⟨hgood.1, hgood.2⟩

/-- Witness for C9 at a concrete flat object. -/
theorem extractFields_leaf_only_witness :
    extractFields (.jobj [("beta", .jnum (.val 2))]) =
      (extractSimpleFields (.jobj [("beta", .jnum (.val 2))])).filter goodFieldName ∧
    ∀ f ∈ extractFields (.jobj [("beta", .jnum (.val 2))]),
      0 < f.length ∧ isPureDigits f = false :=
  extractFields_leaf_only [("beta", .jnum (.val 2))] rfl

/-- C5: the field extractor sorts with the natural-sort comparator — output
is a permutation of the input, pairwise ordered primarily by the leading
integer prefix matched by `^\d+` (absent prefixes count as 0) and
secondarily by lexicographic comparison of the full string; both extractor
outputs are always so ordered; and on a time-series entry with fields
`"2. high"`, `"10. extra"`, `"1. open"` the extracted order is
`["1. open", "2. high", "10. extra"]`. -/
theorem natural_sort_spec (fields : List String) (data : JValue) :
    (natSortFields fields).Perm fields ∧
    (natSortFields fields).Pairwise natOrder ∧
    (extractTimeSeriesFields data).Pairwise natOrder ∧
    (extractSimpleFields data).Pairwise natOrder ∧
    extractTimeSeriesFields (.jobj [("Time Series (Daily)", .jobj
      [("2024-01-02", .jobj [("2. high", .jstr "1"), ("10. extra", .jstr "2"),
        ("1. open", .jstr "3")])])]) = ["1. open", "2. high", "10. extra"] := by
  refine ⟨natSortFields_perm fields, natSortFields_sorted fields, ?_, ?_, rfl⟩
  · unfold extractTimeSeriesFields
    split
    · exact List.Pairwise.nil
    · split
      · exact List.Pairwise.nil
      · dsimp only
        split
        · exact List.Pairwise.nil
        · exact natSortFields_sorted _
  · unfold extractSimpleFields
    split
    · exact List.Pairwise.nil
    · split
      · exact List.Pairwise.nil
      · exact natSortFields_sorted _

theorem jsTruthy_jstr (s : String) : jsTruthy (.jstr s) = !s.isEmpty := rfl

/-- The guard of `findTimeSeries` reduces away on object payloads. -/
theorem findTimeSeries_jobj (fs : List (String × JValue)) :
    findTimeSeries (.jobj fs) =
      (match (jsOwnKeys (.jobj fs)).find? (fun k =>
          matchesTSPattern k && acceptsTSValue (jsGet (.jobj fs) k)) with
       | some k => some (k, jsGet (.jobj fs) k)
       | none =>
         match (jsOwnKeys (.jobj fs)).head? with
         | some fk =>
           if !fk.isEmpty && isDateKey fk then some ("root", (.jobj fs : JValue))
           else none
         | none => none) := rfl

/-- C6 counterexample: the claim says value and change parse with a zero
default on missing or unparseable fields, but an unparseable price string
parses to NaN, not 0 (only missing or falsy fields fall back to "0"). -/
theorem av_quote_nan_counterexample :
    AlphaVantageAdapter.transform
        (.jobj [("Global Quote", .jobj [("05. price", .jstr "N/A")])]) none =
      .ok (some (.metric ⟨.jstr "Unknown", .jnum .nan, some (.val 0),
        some "positive"⟩)) ∧
    JSNum.nan ≠ JSNum.val 0 :=
  ⟨rfl, by decide⟩

/-- C6 (amended): for every object payload with no (truthy) time-series key
and a truthy "Global Quote" entry whose symbol, price and change fields are
non-empty strings, the vendor adapter returns a metric whose label is the
symbol string (the label falls back to "Unknown" only when the field is
falsy), whose value and change are parseFloat of the field strings
(unparseable strings yield NaN, not 0; only missing or falsy fields default
through "0" to 0), and whose changeType is "positive" exactly when the
parsed change is a non-negative number, otherwise "negative"; on the Global
Quote example payload it yields label "AAPL", value 150, change -5/2,
changeType "negative". -/
theorem av_global_quote_metric (fs : List (String × JValue))
    (config : Option MapperConfig) (sym ps cs : String)
    (hts : avTSKey (.jobj fs) = none)
    (hq : jsTruthy (jsGet (.jobj fs) "Global Quote") = true)
    (hs : jsGet (jsGet (.jobj fs) "Global Quote") "01. symbol" = .jstr sym)
    (hs0 : sym.isEmpty = false)
    (hp : jsGet (jsGet (.jobj fs) "Global Quote") "05. price" = .jstr ps)
    (hp0 : ps.isEmpty = false)
    (hc : jsGet (jsGet (.jobj fs) "Global Quote") "09. change" = .jstr cs)
    (hc0 : cs.isEmpty = false) :
    AlphaVantageAdapter.transform (.jobj fs) config =
      .ok (some (.metric ⟨.jstr sym, .jnum (parseFloatStr ps),
        some (parseFloatStr cs),
        some (if jsNumGe0 (parseFloatStr cs) then "positive" else "negative")⟩)) ∧
    (∀ q : Rat, parseFloatStr cs = .val q →
      (jsNumGe0 (parseFloatStr cs) = true ↔ 0 ≤ q)) ∧
    AlphaVantageAdapter.transform (.jobj [("Global Quote", .jobj
        [("01. symbol", .jstr "AAPL"), ("05. price", .jstr "150.00"),
         ("09. change", .jstr "-2.50")])]) none =
      .ok (some (.metric ⟨.jstr "AAPL", .jnum (.val 150),
        some (.val (Rat.mk' (-5) 2)), some "negative"⟩)) := by
  refine ⟨?_, ?_, rfl⟩
  · show avTransform (.jobj fs) config = _
    simp [avTransform, jsTruthy_jobj, typeofObject_jobj, hts, hq, hs, hp, hc,
      jsOr, jsTruthy_jstr, hs0, hp0, hc0, jsParseFloat]
  · intro q hq'
    rw [hq']
    simp [jsNumGe0]

/-- Witness for C6 at the concrete Global Quote payload of the claim. -/
theorem av_global_quote_metric_witness :
    AlphaVantageAdapter.transform (.jobj [("Global Quote", .jobj
        [("01. symbol", .jstr "AAPL"), ("05. price", .jstr "150.00"),
         ("09. change", .jstr "-2.50")])]) none =
      .ok (some (.metric ⟨.jstr "AAPL", .jnum (parseFloatStr "150.00"),
        some (parseFloatStr "-2.50"),
        some (if jsNumGe0 (parseFloatStr "-2.50") then "positive"
          else "negative")⟩)) ∧
    (∀ q : Rat, parseFloatStr "-2.50" = .val q →
      (jsNumGe0 (parseFloatStr "-2.50") = true ↔ 0 ≤ q)) ∧
    AlphaVantageAdapter.transform (.jobj [("Global Quote", .jobj
        [("01. symbol", .jstr "AAPL"), ("05. price", .jstr "150.00"),
         ("09. change", .jstr "-2.50")])]) none =
      .ok (some (.metric ⟨.jstr "AAPL", .jnum (.val 150),
        some (.val (Rat.mk' (-5) 2)), some "negative"⟩)) :=
  av_global_quote_metric
    [("Global Quote", .jobj
      [("01. symbol", .jstr "AAPL"), ("05. price", .jstr "150.00"),
       ("09. change", .jstr "-2.50")])]
    none "AAPL" "150.00" "-2.50" rfl rfl rfl rfl rfl rfl rfl rfl

/-- C1 counterexample: the claim says per-date values default to 0 on
missing or non-numeric fields, but a non-numeric string field parses to NaN,
not 0 (only missing or non-string fields default to 0). -/
theorem av_chart_nan_counterexample :
    AlphaVantageAdapter.transform (.jobj [("Daily", .jobj
        [("2024-01-02", .jobj [("4. close", .jstr "n/a")])])]) none =
      .ok (some (.chart ⟨["2024-01-02"], [("4. close", [.nan])]⟩)) ∧
    JSNum.nan ≠ JSNum.val 0 :=
  ⟨rfl, by decide⟩

/-- C1 (amended): for every object payload in which the adapter finds a key
including one of the time-series substrings and whose value is an object, the
vendor adapter returns a chart whose labels are the series object's own keys
sorted ascending lexicographically, with a single dataset labelled by
`config.fieldMapping.value` (defaulting to "4. close") whose per-date values
are `parseFloat` of the field when the field value is a string (NaN when the
string has no numeric prefix) and 0 when the field is missing or not a
string; on the round-trip payload of the claim it produces labels
`["2024-01-02", "2024-01-03"]` and the dataset `("4. close", [105, 110])`. -/
theorem av_time_series_chart (fs series : List (String × JValue))
    (config : Option MapperConfig) (tsKey : String)
    (hfind : avTSKey (.jobj fs) = some tsKey)
    (hval : jsGet (.jobj fs) tsKey = .jobj series) :
    AlphaVantageAdapter.transform (.jobj fs) config =
      .ok (some (.chart ⟨jsSortStrings (series.map Prod.fst),
        [(avTargetField config,
          (jsSortStrings (series.map Prod.fst)).map
            (avChartPoint (.jobj series) (avTargetField config)))]⟩)) ∧
    (jsSortStrings (series.map Prod.fst)).Pairwise strLexLe ∧
    (jsSortStrings (series.map Prod.fst)).Perm (series.map Prod.fst) ∧
    (∀ date s : String,
      jsGetOpt (jsGet (.jobj series) date) (avTargetField config) = .jstr s →
      avChartPoint (.jobj series) (avTargetField config) date = parseFloatStr s) ∧
    (∀ date : String,
      (∀ s : String,
        jsGetOpt (jsGet (.jobj series) date) (avTargetField config) ≠ .jstr s) →
      avChartPoint (.jobj series) (avTargetField config) date = .val 0) ∧
    AlphaVantageAdapter.transform (.jobj [("Time Series (Daily)", .jobj
        [("2024-01-02", .jobj [("1. open", .jstr "100"), ("4. close", .jstr "105")]),
         ("2024-01-03", .jobj [("1. open", .jstr "106"), ("4. close", .jstr "110")])])])
        none =
      .ok (some (.chart ⟨["2024-01-02", "2024-01-03"],
        [("4. close", [.val 105, .val 110])]⟩)) := by
  refine ⟨?_, jsSortStrings_sorted _, jsSortStrings_perm _, ?_, ?_, rfl⟩
  · show avTransform (.jobj fs) config = _
    simp [avTransform, jsTruthy_jobj, typeofObject_jobj, hfind, hval, jsKeysF,
      jsOwnKeys]
  · intro date s h
    unfold avChartPoint
    rw [h]
  · intro date h
    unfold avChartPoint
    cases hv : jsGetOpt (jsGet (JValue.jobj series) date) (avTargetField config) with
    | jstr s => exact absurd hv (h s)
    | jnull => rfl
    | jundef => rfl
    | jbool b => rfl
    | jnum n => rfl
    | jarr xs => rfl
    | jobj gs => rfl

/-- Witness for C1 at the round-trip payload of the claim. -/
theorem av_time_series_chart_witness :
    AlphaVantageAdapter.transform (.jobj [("Time Series (Daily)", .jobj
        [("2024-01-02", .jobj [("1. open", .jstr "100"), ("4. close", .jstr "105")]),
         ("2024-01-03", .jobj [("1. open", .jstr "106"), ("4. close", .jstr "110")])])])
        none =
      .ok (some (.chart ⟨jsSortStrings
          ([("2024-01-02", JValue.jobj [("1. open", .jstr "100"), ("4. close", .jstr "105")]),
            ("2024-01-03", JValue.jobj [("1. open", .jstr "106"), ("4. close", .jstr "110")])].map
              Prod.fst),
        [(avTargetField none,
          (jsSortStrings
            ([("2024-01-02", JValue.jobj [("1. open", .jstr "100"), ("4. close", .jstr "105")]),
              ("2024-01-03", JValue.jobj [("1. open", .jstr "106"), ("4. close", .jstr "110")])].map
                Prod.fst)).map
            (avChartPoint (.jobj
              [("2024-01-02", JValue.jobj [("1. open", .jstr "100"), ("4. close", .jstr "105")]),
               ("2024-01-03", JValue.jobj [("1. open", .jstr "106"), ("4. close", .jstr "110")])])
              (avTargetField none)))]⟩)) ∧
    (jsSortStrings
        ([("2024-01-02", JValue.jobj [("1. open", .jstr "100"), ("4. close", .jstr "105")]),
          ("2024-01-03", JValue.jobj [("1. open", .jstr "106"), ("4. close", .jstr "110")])].map
            Prod.fst)).Pairwise strLexLe ∧
    (jsSortStrings
        ([("2024-01-02", JValue.jobj [("1. open", .jstr "100"), ("4. close", .jstr "105")]),
          ("2024-01-03", JValue.jobj [("1. open", .jstr "106"), ("4. close", .jstr "110")])].map
            Prod.fst)).Perm
      ([("2024-01-02", JValue.jobj [("1. open", .jstr "100"), ("4. close", .jstr "105")]),
        ("2024-01-03", JValue.jobj [("1. open", .jstr "106"), ("4. close", .jstr "110")])].map
          Prod.fst) ∧
    (∀ date s : String,
      jsGetOpt (jsGet (.jobj
          [("2024-01-02", JValue.jobj [("1. open", .jstr "100"), ("4. close", .jstr "105")]),
           ("2024-01-03", JValue.jobj [("1. open", .jstr "106"), ("4. close", .jstr "110")])]) date)
          (avTargetField none) = .jstr s →
      avChartPoint (.jobj
          [("2024-01-02", JValue.jobj [("1. open", .jstr "100"), ("4. close", .jstr "105")]),
           ("2024-01-03", JValue.jobj [("1. open", .jstr "106"), ("4. close", .jstr "110")])])
          (avTargetField none) date = parseFloatStr s) ∧
    (∀ date : String,
      (∀ s : String,
        jsGetOpt (jsGet (.jobj
            [("2024-01-02", JValue.jobj [("1. open", .jstr "100"), ("4. close", .jstr "105")]),
             ("2024-01-03", JValue.jobj [("1. open", .jstr "106"), ("4. close", .jstr "110")])]) date)
            (avTargetField none) ≠ .jstr s) →
      avChartPoint (.jobj
          [("2024-01-02", JValue.jobj [("1. open", .jstr "100"), ("4. close", .jstr "105")]),
           ("2024-01-03", JValue.jobj [("1. open", .jstr "106"), ("4. close", .jstr "110")])])
          (avTargetField none) date = .val 0) ∧
    AlphaVantageAdapter.transform (.jobj [("Time Series (Daily)", .jobj
        [("2024-01-02", .jobj [("1. open", .jstr "100"), ("4. close", .jstr "105")]),
         ("2024-01-03", .jobj [("1. open", .jstr "106"), ("4. close", .jstr "110")])])])
        none =
      .ok (some (.chart ⟨["2024-01-02", "2024-01-03"],
        [("4. close", [.val 105, .val 110])]⟩)) :=
  av_time_series_chart
    [("Time Series (Daily)", .jobj
      [("2024-01-02", .jobj [("1. open", .jstr "100"), ("4. close", .jstr "105")]),
       ("2024-01-03", .jobj [("1. open", .jstr "106"), ("4. close", .jstr "110")])])]
    [("2024-01-02", .jobj [("1. open", .jstr "100"), ("4. close", .jstr "105")]),
     ("2024-01-03", .jobj [("1. open", .jstr "106"), ("4. close", .jstr "110")])]
    none "Time Series (Daily)" rfl rfl

/-- C7: for every object payload, `findDataStructure` classifies it as a
time series exactly when `findTimeSeries` accepts it — some own key matching
the case-insensitive time-series patterns has a truthy non-array object value
whose first own key is truthy and matches the calendar-date pattern, or,
failing that, the root object's own first key is date-like (reported under
the sentinel key "root") — and whenever `findTimeSeries` accepts, the
classification carries the time-series flag regardless of any quote-pattern
match (time series take precedence). -/
theorem classifier_prefers_time_series (fs : List (String × JValue)) :
    ((∃ k v, findDataStructure (.jobj fs) = some (k, v, true)) ↔
      (findTimeSeries (.jobj fs)).isSome = true) ∧
    ((findTimeSeries (.jobj fs)).isSome = true ↔
      ((∃ k, k ∈ jsOwnKeys (.jobj fs) ∧ matchesTSPattern k = true ∧
          acceptsTSValue (jsGet (.jobj fs) k) = true) ∨
        (∃ fk rest, jsOwnKeys (.jobj fs) = fk :: rest ∧ fk.isEmpty = false ∧
          isDateKey fk = true))) ∧
    (∀ k v, findTimeSeries (.jobj fs) = some (k, v) →
      findDataStructure (.jobj fs) = some (k, v, true)) := by
  have hforward : ∀ k v, findTimeSeries (.jobj fs) = some (k, v) →
      findDataStructure (.jobj fs) = some (k, v, true) := by
    intro k v h
    simp [findDataStructure, jsTruthy_jobj, typeofObject_jobj, h]
  refine ⟨⟨?_, ?_⟩, ⟨?_, ?_⟩, hforward⟩
  · rintro ⟨k, v, h⟩
    cases hts : findTimeSeries (.jobj fs) with
    | some r => simp
    | none =>
      exfalso
      simp only [findDataStructure, jsTruthy_jobj, typeofObject_jobj, hts,
        Bool.not_true, Bool.or_self, if_false] at h
      cases hq : (jsOwnKeys (JValue.jobj fs)).find? (fun k =>
          matchesQuotePattern k && (jsTruthy (jsGet (JValue.jobj fs) k) &&
            typeofObject (jsGet (JValue.jobj fs) k) &&
            !isArr (jsGet (JValue.jobj fs) k))) with
      | none => rw [hq] at h; simp at h
      | some k2 => rw [hq] at h; simp at h
  · intro h
    obtain ⟨r, hr⟩ := Option.isSome_iff_exists.mp h
    exact ⟨r.1, r.2, hforward r.1 r.2 (by rw [hr])⟩
  · intro h
    rw [findTimeSeries_jobj] at h
    cases hf : (jsOwnKeys (JValue.jobj fs)).find? (fun k =>
        matchesTSPattern k && acceptsTSValue (jsGet (JValue.jobj fs) k)) with
    | some k =>
      left
      have hmem := List.mem_of_find?_eq_some hf
      have hpred := List.find?_some hf
      simp only [Bool.and_eq_true] at hpred
      exact ⟨k, hmem, hpred.1, hpred.2⟩
    | none =>
      rw [hf] at h
      cases hk : (jsOwnKeys (JValue.jobj fs)).head? with
      | none => rw [hk] at h; simp at h
      | some fk =>
        rw [hk] at h
        by_cases hcond : (!fk.isEmpty && isDateKey fk) = true
        · right
          obtain ⟨rest, hrest⟩ : ∃ t, jsOwnKeys (JValue.jobj fs) = fk :: t := by
            cases hl : jsOwnKeys (JValue.jobj fs) with
            | nil => rw [hl] at hk; simp at hk
            | cons a t =>
              rw [hl] at hk
              simp only [List.head?_cons, Option.some.injEq] at hk
              exact ⟨t, by rw [hk]⟩
          simp only [Bool.and_eq_true, Bool.not_eq_true'] at hcond
          exact ⟨fk, rest, hrest, hcond.1, hcond.2⟩
        · simp [hcond] at h
  · rintro (⟨k, hmem, hpat, hacc⟩ | ⟨fk, rest, hrest, hemp, hdate⟩)
    · rw [findTimeSeries_jobj]
      have hsome : ((jsOwnKeys (JValue.jobj fs)).find? (fun k =>
          matchesTSPattern k && acceptsTSValue (jsGet (JValue.jobj fs) k))).isSome
            = true :=
        List.find?_isSome.mpr ⟨k, hmem, by simp [hpat, hacc]⟩
      obtain ⟨k2, hk2⟩ := Option.isSome_iff_exists.mp hsome
      rw [hk2]
      simp
    · rw [findTimeSeries_jobj]
      cases hf : (jsOwnKeys (JValue.jobj fs)).find? (fun k =>
          matchesTSPattern k && acceptsTSValue (jsGet (JValue.jobj fs) k)) with
      | some k2 => simp
      | none =>
        rw [hrest]
        simp [hemp, hdate]

/-- Witness for C7 at the claim's ambiguous payload. -/
theorem classifier_prefers_time_series_witness :
    ((∃ k v, findDataStructure (.jobj
        [("Global Quote", .jobj [("x", .jstr "1")]),
         ("Daily", .jobj [("2024-01-02", .jobj [("y", .jstr "2")])])]) =
          some (k, v, true)) ↔
      (findTimeSeries (.jobj
        [("Global Quote", .jobj [("x", .jstr "1")]),
         ("Daily", .jobj [("2024-01-02", .jobj [("y", .jstr "2")])])])).isSome = true) ∧
    ((findTimeSeries (.jobj
        [("Global Quote", .jobj [("x", .jstr "1")]),
         ("Daily", .jobj [("2024-01-02", .jobj [("y", .jstr "2")])])])).isSome = true ↔
      ((∃ k, k ∈ jsOwnKeys (JValue.jobj
            [("Global Quote", .jobj [("x", .jstr "1")]),
             ("Daily", .jobj [("2024-01-02", .jobj [("y", .jstr "2")])])]) ∧
          matchesTSPattern k = true ∧
          acceptsTSValue (jsGet (.jobj
            [("Global Quote", .jobj [("x", .jstr "1")]),
             ("Daily", .jobj [("2024-01-02", .jobj [("y", .jstr "2")])])]) k) = true) ∨
        (∃ fk rest, jsOwnKeys (JValue.jobj
            [("Global Quote", .jobj [("x", .jstr "1")]),
             ("Daily", .jobj [("2024-01-02", .jobj [("y", .jstr "2")])])]) = fk :: rest ∧
          fk.isEmpty = false ∧ isDateKey fk = true))) ∧
    (∀ k v, findTimeSeries (.jobj
        [("Global Quote", .jobj [("x", .jstr "1")]),
         ("Daily", .jobj [("2024-01-02", .jobj [("y", .jstr "2")])])]) = some (k, v) →
      findDataStructure (.jobj
        [("Global Quote", .jobj [("x", .jstr "1")]),
         ("Daily", .jobj [("2024-01-02", .jobj [("y", .jstr "2")])])]) =
          some (k, v, true)) :=
  classifier_prefers_time_series
    [("Global Quote", .jobj [("x", .jstr "1")]),
     ("Daily", .jobj [("2024-01-02", .jobj [("y", .jstr "2")])])]
